import Mathlib

/-!
Verification development for the evebox dashboard analytics refresh engine
(webapp/src/dashboards/Overview.tsx and webapp/src/dashboards/SoDashboardsPage.tsx).

The TypeScript source is shallowly embedded below: pure functions become Lean
functions; the stateful refresh/registry machinery becomes explicit state
passing over small state records.  String handling follows JavaScript
semantics (string truthiness, `split`, `trim`, and the tokenizing regex).
The file is organized as definitions first, then theorems.
-/

namespace Evebox

/-! ## Definitions: tokenizing and query composition -/

/-- Whitespace per the JavaScript `\s` / `\S` character classes, restricted to
the ASCII range (space, tab, newline, carriage return, vertical tab, form feed). -/
def jsWhite (c : Char) : Bool :=
  c = ' ' || c = '\t' || c = '\n' || c = '\r' || c = '\x0b' || c = '\x0c'

/-- JavaScript `String.prototype.trim` on a character list: drop leading and
trailing whitespace. -/
def jsTrimList (l : List Char) : List Char :=
  ((l.dropWhile jsWhite).reverse.dropWhile jsWhite).reverse

/-- JavaScript `String.prototype.trim`. -/
def jsTrim (s : String) : String :=
  String.mk (jsTrimList s.data)

/-- Recursion core of `splitQuery` from Overview.tsx (lines 360-367).  The
`fuel` argument only bounds the recursion depth (every step consumes at least
one character, so `fuel = l.length` always suffices); it makes the scanner
structurally recursive and hence kernel-computable.  The scanning semantics of

    q.replace(/"([^"]*)"|(\S+)/g, (_match, quoted, bare) => { out.push(quoted ?? bare); ... })

is: the global regex scan finds the leftmost match at each step; at a position
holding `"` that has a later closing `"`, the first alternative matches and
pushes the (possibly empty) text strictly between the quotes; at any other
non-whitespace position the second alternative pushes the maximal run of
non-whitespace characters (which may itself contain `"`). -/
def splitQueryGo : Nat → List Char → List (List Char)
  | 0, _ => []
  | _ + 1, [] => []
  | fuel + 1, c :: cs =>
    if jsWhite c then splitQueryGo fuel cs
    else if c = '"' && cs.contains '"' then
      cs.takeWhile (fun d => d != '"') ::
        splitQueryGo fuel ((cs.dropWhile (fun d => d != '"')).tail)
    else
      (c :: cs.takeWhile (fun d => !jsWhite d)) ::
        splitQueryGo fuel (cs.dropWhile (fun d => !jsWhite d))

/-- Embedding of `splitQuery` from Overview.tsx (lines 360-367). -/
def splitQuery (l : List Char) : List (List Char) :=
  splitQueryGo l.length l

/-- String-level wrapper of `splitQuery`. -/
def splitQueryStr (q : String) : List String :=
  (splitQuery q.data).map String.mk

/-- Embedding of `addFilter` from Overview.tsx (lines 369-378): tokenize the
current query with `splitQuery`, append the fragment unless already present,
re-join with single spaces. -/
def addFilter (q frag : String) : String :=
  let tokens := splitQueryStr q
  let tokens := if frag ∈ tokens then tokens else tokens ++ [frag]
  String.intercalate " " tokens

/-- Embedding of `removeFilter` from Overview.tsx (lines 380-386). -/
def removeFilter (q frag : String) : String :=
  String.intercalate " " ((splitQueryStr q).filter (fun t => t != frag))

/-- JavaScript `String.prototype.split(" ")`: split at every single space,
keeping empty segments (so `"".split(" ")` is `[""]`). -/
def jsSplitOnSpace : List Char → List (List Char)
  | [] => [[]]
  | c :: cs =>
    if c = ' ' then [] :: jsSplitOnSpace cs
    else
      match jsSplitOnSpace cs with
      | [] => [[c]]
      | t :: ts => (c :: t) :: ts

/-- Tokenizer used by `addFilter` in SoDashboardsPage.tsx (line 174):
`(searchParams.q || "").split(" ").filter((t) => t.trim().length > 0)`. -/
def soSplit (q : String) : List String :=
  ((jsSplitOnSpace q.data).map String.mk).filter (fun t => jsTrim t != "")

/-- Embedding of `addFilter` from SoDashboardsPage.tsx (lines 173-179). -/
def soAddFilter (q frag : String) : String :=
  let tokens := soSplit q
  let tokens := if frag ∈ tokens then tokens else tokens ++ [frag]
  String.intercalate " " tokens

/-- Embedding of the fragment encoding in `handleTableRowClick` from
Overview.tsx (lines 388-392): quote the value when it contains a space. -/
def encodeValue (value : String) : String :=
  if value.data.contains ' ' then "\"" ++ value ++ "\"" else value

/-- The `field:value` filter fragment produced by the chart/table click
handlers (Overview.tsx lines 388-392, 547, 591). -/
def mkFragment (field value : String) : String :=
  field ++ ":" ++ encodeValue value

/-- The structured filter state of SoDashboardsPage.tsx (lines 30-37, 125-132):
sensor, severity set, ip, signature, proto, port.  All string fields default to
`""`, which is JavaScript-falsy. -/
structure FilterState where
  sensor : String
  severity : List String
  ip : String
  signature : String
  proto : String
  port : String
deriving DecidableEq

/-- Embedding of `buildQueryString` from SoDashboardsPage.tsx (lines 159-171).
`q` models `searchParams.q` (with `""` for the JavaScript-falsy undefined),
`extra` and `onlyAlerts` are the two parameters of the source function.
A `tokens.push` guarded by JavaScript string truthiness becomes a conditional
singleton. -/
def buildQueryString (fs : FilterState) (q : String) (extra : List String)
    (onlyAlerts : Bool) : String :=
  let tokens : List String :=
    (if fs.sensor ≠ "" then ["host:" ++ fs.sensor] else []) ++
    (if fs.severity ≠ [] then
      ["alert.severity:(" ++ String.intercalate " OR " fs.severity ++ ")"] else []) ++
    (if fs.ip ≠ "" then ["ip:" ++ fs.ip] else []) ++
    (if fs.signature ≠ "" then ["alert.signature:\"" ++ fs.signature ++ "\""] else []) ++
    (if fs.proto ≠ "" then ["proto:" ++ fs.proto] else []) ++
    (if fs.port ≠ "" then ["port:" ++ fs.port] else []) ++
    (if q ≠ "" then [q] else []) ++
    extra ++
    (if onlyAlerts then ["event_type:alert"] else [])
  jsTrim (String.intercalate " " tokens)

/-- Embedding of `buildQueryString` from Overview.tsx (lines 152-161): sensor
scoping followed by the trimmed free-text query. -/
def ovBuildQueryString (sensor q : String) : String :=
  let queryParts : List String :=
    (if sensor ≠ "" then ["host:" ++ sensor] else []) ++
    (if jsTrim q ≠ "" then [jsTrim q] else [])
  jsTrim (String.intercalate " " queryParts)

/-- Modelled from the words of the specification (section 4.4 and claim C6):
the ordered list of segments — sensor scoping, severity OR-group, ip,
quoted signature, proto, port, free-text tokens, semantic restriction — with
an absent segment represented by the empty string. -/
def specSegments (fs : FilterState) (q : String) (onlyAlerts : Bool) : List String :=
  [ (if fs.sensor ≠ "" then "host:" ++ fs.sensor else ""),
    (if fs.severity ≠ [] then
      "alert.severity:(" ++ String.intercalate " OR " fs.severity ++ ")" else ""),
    (if fs.ip ≠ "" then "ip:" ++ fs.ip else ""),
    (if fs.signature ≠ "" then "alert.signature:\"" ++ fs.signature ++ "\"" else ""),
    (if fs.proto ≠ "" then "proto:" ++ fs.proto else ""),
    (if fs.port ≠ "" then "port:" ++ fs.port else ""),
    (if q ≠ "" then q else ""),
    (if onlyAlerts then "event_type:alert" else "") ]

/-- Modelled from the words of the specification (claim C6): the composed
query string is the space-join of the non-empty segments. -/
def specCompose (fs : FilterState) (q : String) (onlyAlerts : Bool) : String :=
  String.intercalate " " ((specSegments fs q onlyAlerts).filter (fun s => s != ""))

/-- Modelled from the words of the specification for the Overview variant of
the composer: sensor scoping then the trimmed free-text tokens, space-joined
with empty segments omitted. -/
def specComposeOv (sensor q : String) : String :=
  String.intercalate " "
    (List.filter (fun s => s != "")
      [(if sensor ≠ "" then "host:" ++ sensor else ""),
       (if jsTrim q ≠ "" then jsTrim q else "")])

/-- A FilterState whose sensor field is a single space (typable in the sensor
input box, and JavaScript-truthy). -/
def fsSensorBlank : FilterState :=
  { sensor := " ", severity := [], ip := "", signature := "", proto := "", port := "" }

/-! ## Definitions: the generation-tagged analytics refresh engine (C1) -/

/-- Generation-tagged refresh engine of `refreshAnalytics` (Overview.tsx lines
394-417): `rid` is the module-level request counter; charts are indexed by a
number (0-3 for the four analytics loads) and record the generation whose data
they display. -/
structure GenState where
  rid : Nat
  pending : List (Nat × Nat)
  charts : Nat → Option Nat

/-- Events of the refresh engine: `refresh` is a call to `refreshAnalytics`
(`const my = ++rid` then the four loads are issued tagged with `my`);
`complete g c` is the arrival of chart `c`'s response from the cycle that
captured generation `g`. -/
inductive GenEvent
  | refresh
  | complete (g : Nat) (chart : Nat)

/-- The chart indices of the four loads issued by `refreshAnalytics`. -/
def analyticsCharts : List Nat := [0, 1, 2, 3]

/-- One step of the Overview analytics refresh engine.  A completion first
checks `if (requestId !== rid) return` and only a current-generation response
updates its chart. -/
def genStep (s : GenState) : GenEvent → GenState
  | GenEvent.refresh =>
    { rid := s.rid + 1,
      pending := s.pending ++ analyticsCharts.map (fun c => (s.rid + 1, c)),
      charts := s.charts }
  | GenEvent.complete g c =>
    let pending := s.pending.filter (fun p => p != (g, c))
    if g = s.rid then
      { s with
        pending := pending,
        charts := fun k => if k = c then some g else s.charts k }
    else
      { s with pending := pending }

/-! ## Definitions: the SoDashboards refresh cycle and its loading guard (C1, C7, C8) -/

/-- Refresh engine of SoDashboardsPage.tsx (lines 693-709 plus the trigger
effect at 147-152): a single `loading` flag guards the whole cycle;
`refreshAllCharts` returns immediately when a cycle is in flight, otherwise
starts cycle n+1 and issues its request batch. -/
structure SoPage where
  loading : Bool
  cycle : Nat
  issued : List Nat
deriving DecidableEq

/-- Embedding of `refreshAllCharts` (SoDashboardsPage.tsx lines 693-709):
`if (loading()) return; setLoading(true); ...issue all chart loads...`. -/
def soRefreshAllCharts (s : SoPage) : SoPage :=
  if s.loading then s
  else { loading := true, cycle := s.cycle + 1, issued := s.issued ++ [s.cycle + 1] }

/-- A FilterState mutation re-runs the tracking effect (SoDashboardsPage.tsx
lines 147-152: `TIME_RANGE(); searchParams.q; JSON.stringify(filters);
refreshAllCharts();`). -/
def soMutate (s : SoPage) : SoPage := soRefreshAllCharts s

/-- Completion of the in-flight cycle: `Promise.all` resolves (every load
catches its own errors) and `setLoading(false)` runs. -/
def soCompleteCycle (s : SoPage) : SoPage := { s with loading := false }

/-- The initial SoDashboards page state. -/
def soPageInit : SoPage := { loading := false, cycle := 0, issued := [] }

/-! ## Definitions: per-chart error handling (C7) -/

/-- Outcome of one chart's backend request within a refresh cycle. -/
inductive FetchResult
  | ok (rows : List Nat)
  | fail
deriving DecidableEq

/-- What a chart canvas currently displays. -/
inductive ChartView
  | blank
  | data (rows : List Nat)
  | errorView
  | emptyView
deriving DecidableEq

/-- Per-chart update rule of the SoDashboards loads other than
`loadTopSignatures` (e.g. `loadEventsPerMinute`, lines 199-249, and likewise
`loadSeverityStack`, `loadTopTalkers`, `loadProtocolMix`, `loadDnsHttpTls`,
`loadHeatmap`, `loadFlows`, `loadSankey`): the `catch` branch replaces the
chart with the explicit error placeholder
(`emptyChartConfig("Ошибка загрузки данных")` after `addError`), an empty
result set renders the explicit no-data placeholder, and otherwise the rows
are rendered.  The previous view is never kept. -/
def soApplyResult (_v : ChartView) : FetchResult → ChartView
  | FetchResult.ok [] => ChartView.emptyView
  | FetchResult.ok rows => ChartView.data rows
  | FetchResult.fail => ChartView.errorView

/-- Per-chart update rule of `loadTopSignatures` (SoDashboardsPage.tsx lines
351-410): a successful fetch renders the rows unconditionally (there is no
empty-state branch for this chart), while its `catch` branch (lines 405-409)
only logs, raises the notification and clears the signature table rows — it
never calls `setChart`, so the topSignatures chart keeps whatever it showed
before. -/
def soApplySignatures (v : ChartView) : FetchResult → ChartView
  | FetchResult.ok rows => ChartView.data rows
  | FetchResult.fail => v

/-- Per-chart update rule of Overview's `refreshAnalytics` loads (lines
394-466): the loads have no try/catch, so a failed request leaves the
previously rendered chart untouched. -/
def ovApplyResult (v : ChartView) : FetchResult → ChartView
  | FetchResult.ok rows => ChartView.data rows
  | FetchResult.fail => v

/-- One SoDashboards refresh cycle applied to the chart map: each key's view
is computed from its own result only, with the `topSignatures` key following
`loadTopSignatures`'s rule and every other key the common placeholder rule. -/
def soRunCycle (charts : String → ChartView) (results : String → FetchResult) :
    String → ChartView :=
  fun k =>
    if k = "topSignatures" then soApplySignatures (charts k) (results k)
    else soApplyResult (charts k) (results k)

/-- One Overview analytics cycle applied to the chart map. -/
def ovRunCycle (charts : String → ChartView) (results : String → FetchResult) :
    String → ChartView :=
  fun k => ovApplyResult (charts k) (results k)

/-! ## Definitions: the chart-sink registry (C4) -/

/-- State of the chart-sink registry pattern shared by `upsertChart`
(Overview.tsx lines 350-358) and `setChart` (SoDashboardsPage.tsx lines
181-188): the key-indexed map of live Chart instances plus a log of created
and destroyed instance ids (`new Chart(...)` allocates a fresh id,
`chart.destroy()` records the id as destroyed). -/
structure RegState where
  nextId : Nat
  reg : String → Option Nat
  created : List (Nat × String)
  destroyed : List Nat

/-- The empty registry. -/
def regInit : RegState :=
  { nextId := 0, reg := fun _ => none, created := [], destroyed := [] }

/-- First half of an upsert: `if (chartRegistry[key]) chartRegistry[key].destroy()`
(the slot is dead from this point until the new instance is stored). -/
def destroyExisting (s : RegState) (key : String) : RegState :=
  match s.reg key with
  | some old =>
    { s with
      destroyed := old :: s.destroyed,
      reg := fun k => if k = key then none else s.reg k }
  | none => s

/-- Second half of an upsert: `chartRegistry[key] = new Chart(canvas, config)`. -/
def createChart (s : RegState) (key : String) : RegState :=
  { nextId := s.nextId + 1,
    reg := fun k => if k = key then some s.nextId else s.reg k,
    created := (s.nextId, key) :: s.created,
    destroyed := s.destroyed }

/-- `upsertChart` / `setChart`: a no-op when the canvas for the key is not
mounted (`if (!canvas) return`), otherwise destroy-then-create. -/
def upsertChart (hasCanvas : String → Bool) (s : RegState) (key : String) : RegState :=
  if hasCanvas key then createChart (destroyExisting s key) key else s

/-- A sequence of upsert calls, oldest first. -/
def runUpserts (hasCanvas : String → Bool) (s : RegState) (calls : List String) : RegState :=
  calls.foldl (upsertChart hasCanvas) s

/-- Instance `i` is a live visual for `key`: it was created for `key` and has
not been destroyed. -/
def instLive (s : RegState) (i : Nat) (key : String) : Prop :=
  (i, key) ∈ s.created ∧ i ∉ s.destroyed

/-- The registry invariant tying the key map to the creation/destruction logs. -/
def RegInv (s : RegState) : Prop :=
  (∀ i key, (i, key) ∈ s.created → i ∉ s.destroyed → s.reg key = some i) ∧
  (∀ key i, s.reg key = some i → (i, key) ∈ s.created ∧ i ∉ s.destroyed) ∧
  (∀ i key, (i, key) ∈ s.created → i < s.nextId) ∧
  (∀ i key key', (i, key) ∈ s.created → (i, key') ∈ s.created → key = key') ∧
  (∀ i, i ∈ s.destroyed → i < s.nextId)

/-! ## Definitions: the sparkline registries (C5) -/

/-- The per-signature sparkline charts with created/destroyed bookkeeping
(Overview.tsx `signatureSparklines`, SoDashboardsPage.tsx `sparklineCharts`),
kept as an association list keyed by signature text. -/
structure SparkState where
  nextId : Nat
  spark : List (String × Nat)
  destroyed : List Nat
deriving DecidableEq

/-- The empty sparkline registry. -/
def sparkInit : SparkState := { nextId := 0, spark := [], destroyed := [] }

/-- The signatures that currently have a live sparkline instance. -/
def sparkKeys (s : SparkState) : List String := s.spark.map Prod.fst

/-- Reconciliation pass of the Overview sparkline effect (lines 641-653):
destroy and delete every sparkline whose key is not in the current row set. -/
def destroyStale (s : SparkState) (keys : List String) : SparkState :=
  { s with
    spark := s.spark.filter (fun p => decide (p.1 ∈ keys)),
    destroyed := (s.spark.filter (fun p => !decide (p.1 ∈ keys))).map Prod.snd ++ s.destroyed }

/-- `loadSignatureTrend` (Overview.tsx lines 600-639) / `setSparkline`
(SoDashboardsPage.tsx lines 190-197): destroy any existing chart for the key,
then store a freshly created one. -/
def loadTrend (s : SparkState) (key : String) : SparkState :=
  { nextId := s.nextId + 1,
    spark := (key, s.nextId) :: s.spark.filter (fun p => p.1 != key),
    destroyed := (s.spark.filter (fun p => p.1 == key)).map Prod.snd ++ s.destroyed }

/-- The Overview sparkline reconciliation effect run to quiescence on the
current top-signature rows: stale keys destroyed, then a trend chart loaded
for every current row. -/
def ovSparkReconcile (s : SparkState) (rows : List String) : SparkState :=
  rows.foldl loadTrend (destroyStale s rows)

/-- The SoDashboards `loadTopSignatures` sparkline pass (lines 380-404):
create or replace a sparkline for every row of the current result, with no
reconciliation against previously present keys. -/
def soSparkLoad (s : SparkState) (rows : List String) : SparkState :=
  rows.foldl loadTrend s

/-! ## Definitions: the Overview page reactive model (C8, C10) -/

/-- The reactive cells read by the Overview page's computations. -/
inductive Cell
  | timeRange
  | sensor
  | query
  | qParam
deriving DecidableEq

/-- Reactive reads performed synchronously by `buildQueryString` (Overview.tsx
lines 152-161): `searchParams.sensor` and `filters.query`. -/
def buildQueryStringReads : List Cell := [Cell.sensor, Cell.query]

/-- Reactive reads performed synchronously (before the first await) by the
body of the TIME_RANGE effect (Overview.tsx lines 103-107): `TIME_RANGE()`
plus the reads of `buildQueryString`, which both `refresh()` and
`refreshAnalytics()` call before their first await.  Solid tracks every
signal and store read made in the synchronous extent of an effect. -/
def timeRangeEffectReads : List Cell :=
  Cell.timeRange :: buildQueryStringReads ++ buildQueryStringReads

/-- Observable request state of the Overview page: `version` is the SSE
generation counter bumped by `refresh()`, `rid` the analytics counter bumped
by `refreshAnalytics()`; the issue logs record at which generation the SSE
aggregation batch, the events-by-type histogram, and the four analytics loads
were (re)requested. -/
structure OvPage where
  query : String
  qParam : String
  sensor : String
  version : Nat
  rid : Nat
  sseIssued : List Nat
  histIssued : List Nat
  analyticsIssued : List Nat
deriving DecidableEq

/-- Embedding of `refresh()` (Overview.tsx lines 163-229): bump `version` and
re-issue the SSE aggregation batch and the events-by-type histogram. -/
def ovRefresh (s : OvPage) : OvPage :=
  { s with
    version := s.version + 1,
    sseIssued := s.sseIssued ++ [s.version + 1],
    histIssued := s.histIssued ++ [s.version + 1] }

/-- Embedding of `refreshAnalytics()` (Overview.tsx lines 394-408): bump `rid`
and issue the four analytics loads. -/
def ovRefreshAnalytics (s : OvPage) : OvPage :=
  { s with
    rid := s.rid + 1,
    analyticsIssued := s.analyticsIssued ++ [s.rid + 1] }

/-- Body of the TIME_RANGE effect (Overview.tsx lines 103-107). -/
def timeRangeEffectBody (s : OvPage) : OvPage :=
  ovRefreshAnalytics (ovRefresh s)

/-- Reactive propagation: after the synchronous code that wrote `changed`
finishes, Solid re-runs each user effect whose tracked read set contains
`changed`. -/
def propagate (changed : Cell) (s : OvPage) : OvPage :=
  if changed ∈ timeRangeEffectReads then timeRangeEffectBody s else s

/-- Embedding of Overview's `addFilter` call path (lines 369-378): compute the
next query from `searchParams.q || filters.query || ""`, write it to the
filter store and the URL, call `refreshAnalytics()` directly, then the queued
effect run for the changed `filters.query` cell. -/
def ovAddFilter (s : OvPage) (frag : String) : OvPage :=
  let next := addFilter (if s.qParam ≠ "" then s.qParam else s.query) frag
  let s1 := { s with query := next, qParam := next }
  let s2 := ovRefreshAnalytics s1
  propagate Cell.query s2

/-- Embedding of Overview's `removeFilter` call path (lines 380-386). -/
def ovRemoveFilter (s : OvPage) (frag : String) : OvPage :=
  let next := removeFilter s.query frag
  let s1 := { s with query := next, qParam := next }
  let s2 := ovRefreshAnalytics s1
  propagate Cell.query s2

/-- The initial Overview page state. -/
def ovPageInit : OvPage :=
  { query := "", qParam := "", sensor := "", version := 0, rid := 0,
    sseIssued := [], histIssued := [], analyticsIssued := [] }

/-! ## Theorems: tokenizer groundwork -/

/-- Dropping a prefix never lengthens a list. -/
theorem dropWhile_len_le (p : Char → Bool) :
    ∀ l : List Char, (l.dropWhile p).length ≤ l.length := by
  intro l
  induction l with
  | nil => simp
  | cons c cs ih =>
    simp only [List.dropWhile]
    split
    · exact Nat.le_succ_of_le ih
    · simp

/-- The tail of the dropped quote-free prefix is shorter than the input. -/
theorem quoteRest_len_le (cs : List Char) :
    ((cs.dropWhile (fun d => d != '"')).tail).length ≤ cs.length := by
  have h1 : ((cs.dropWhile (fun d => d != '"')).tail).length ≤
      (cs.dropWhile (fun d => d != '"')).length := by
    cases cs.dropWhile (fun d => d != '"') <;> simp
  have h2 := dropWhile_len_le (fun d => d != '"') cs
  omega

/-- The fuel argument of `splitQueryGo` is irrelevant as long as it is at
least the length of the input. -/
theorem splitQueryGo_fuel (fuel : Nat) :
    ∀ (fuel' : Nat) (l : List Char), l.length ≤ fuel → l.length ≤ fuel' →
      splitQueryGo fuel l = splitQueryGo fuel' l := by
  induction fuel with
  | zero =>
    intro fuel' l h _
    have hl : l = [] := List.eq_nil_of_length_eq_zero (Nat.le_zero.mp h)
    subst hl
    cases fuel' <;> rfl
  | succ fuel ih =>
    intro fuel' l h h'
    cases l with
    | nil => cases fuel' <;> rfl
    | cons c cs =>
      cases fuel' with
      | zero => simp at h'
      | succ fuel' =>
        simp only [List.length_cons, Nat.add_le_add_iff_right] at h h'
        have hdq := quoteRest_len_le cs
        have hdw := dropWhile_len_le (fun d => !jsWhite d) cs
        simp only [splitQueryGo]
        split
        · exact ih fuel' cs h h'
        · split
          · rw [ih fuel' _ (by omega) (by omega)]
          · rw [ih fuel' _ (by omega) (by omega)]

example : splitQueryStr "event_type:alert proto:tcp" = ["event_type:alert", "proto:tcp"] := by
  decide

example : splitQueryStr "\"ET SCAN\" x" = ["ET SCAN", "x"] := by decide

example : splitQueryStr "alert.signature:\"ET SCAN\"" =
    ["alert.signature:\"ET", "SCAN\""] := by decide

example : splitQueryStr "\"\"" = [""] := by decide

example : mkFragment "src_ip" "10.1.1.1" = "src_ip:10.1.1.1" := by decide

example : mkFragment "alert.signature" "ET SCAN" = "alert.signature:\"ET SCAN\"" := by decide

/-- Unfolding equation of `splitQuery`: empty input. -/
theorem splitQuery_nil : splitQuery [] = [] := rfl

/-- Unfolding equation of `splitQuery`: a leading whitespace character is
skipped. -/
theorem splitQuery_cons_ws (c : Char) (cs : List Char) (h : jsWhite c = true) :
    splitQuery (c :: cs) = splitQuery cs := by
  unfold splitQuery
  simp only [List.length_cons, splitQueryGo, h, if_pos]

/-- Unfolding equation of `splitQuery`: a leading `"` with a later closing `"`
emits the text strictly between the quotes as one token. -/
theorem splitQuery_cons_quote (cs : List Char) (h : '"' ∈ cs) :
    splitQuery ('"' :: cs) =
      cs.takeWhile (fun d => d != '"') ::
        splitQuery ((cs.dropWhile (fun d => d != '"')).tail) := by
  unfold splitQuery
  have hws : jsWhite '"' = false := by decide
  have hcon : cs.contains '"' = true := by
    simpa [List.elem_iff] using h
  simp only [List.length_cons, splitQueryGo, hws, Bool.false_eq_true, if_false, decide_True,
    hcon, Bool.and_self, if_true]
  rw [splitQueryGo_fuel cs.length ((cs.dropWhile (fun d => d != '"')).tail).length _
    (quoteRest_len_le cs) (Nat.le_refl _)]

/-- Unfolding equation of `splitQuery`: at any other non-whitespace leading
character the maximal non-whitespace run is emitted as one token. -/
theorem splitQuery_cons_bare (c : Char) (cs : List Char) (h : jsWhite c = false)
    (h2 : ¬(c = '"' ∧ '"' ∈ cs)) :
    splitQuery (c :: cs) =
      (c :: cs.takeWhile (fun d => !jsWhite d)) ::
        splitQuery (cs.dropWhile (fun d => !jsWhite d)) := by
  unfold splitQuery
  have hcond : (decide (c = '"') && cs.contains '"') = false := by
    by_cases hcq : c = '"'
    · have hm : '"' ∉ cs := fun hm => h2 ⟨hcq, hm⟩
      have hc2 : cs.contains '"' = false := by
        simpa [List.elem_iff] using hm
      simp only [hc2, Bool.and_false]
    · simp [hcq]
  simp only [List.length_cons, splitQueryGo, h, Bool.false_eq_true, if_false, hcond]
  rw [splitQueryGo_fuel cs.length (cs.dropWhile (fun d => !jsWhite d)).length _
    (dropWhile_len_le _ cs) (Nat.le_refl _)]

/-- A string starting with a non-empty string is non-empty. -/
theorem str_append_ne_empty (a b : String) (h : a ≠ "") : a ++ b ≠ "" := by
  intro hc
  apply h
  apply String.ext
  have hd : (a ++ b).data = a.data ++ b.data := String.data_append a b
  have : a.data ++ b.data = [] := by rw [← hd, hc]
  rcases List.append_eq_nil.mp this with ⟨ha, _⟩
  simpa using ha

/-- Filtering the non-empty strings out of a conditional segment keeps exactly
the conditional singleton, provided the segment text is non-empty when the
condition holds. -/
theorem filter_seg (c : Prop) [Decidable c] (s : String) (hs : c → s ≠ "")
    (rest : List String) :
    List.filter (fun t => t != "") ((if c then s else "") :: rest) =
      (if c then [s] else []) ++ List.filter (fun t => t != "") rest := by
  by_cases h : c
  · simp [h, hs h]
  · simp [h]

/-! ## Theorems: the claims -/

/-- C6 counterexample: `buildQueryString` is not the plain space-join of the
non-empty segments, because the source applies a final `.trim()`.  With a
whitespace-only sensor value the code yields `"host:"` while the space-join of
the segments is `"host: "`. -/
theorem buildQueryString_not_plain_join :
    buildQueryString fsSensorBlank "" [] false ≠ specCompose fsSensorBlank "" false ∧
    buildQueryString fsSensorBlank "" [] false = "host:" ∧
    specCompose fsSensorBlank "" false = "host: " := by
  refine ⟨by decide, by decide, by decide⟩

/-- C6 (amended): for every FilterState, the composed query string is the
whitespace-trim of the space-join, with empty/undefined segments omitted, of:
sensor scoping, then the structured filters (severity as one OR-group,
ip/signature/proto/port as direct `field:value` terms with the signature value
quoted), then the free-text tokens, then the chart's semantic restriction —
and likewise for the Overview composer (sensor scoping then trimmed free
text). -/
theorem buildQueryString_eq_trimmed_specCompose :
    (∀ (fs : FilterState) (q : String) (onlyAlerts : Bool),
      buildQueryString fs q [] onlyAlerts = jsTrim (specCompose fs q onlyAlerts)) ∧
    (∀ sensor q : String, ovBuildQueryString sensor q = jsTrim (specComposeOv sensor q)) := by
  constructor
  · intro fs q onlyAlerts
    unfold buildQueryString specCompose specSegments
    rw [filter_seg _ _ (fun _ => str_append_ne_empty "host:" fs.sensor (by decide)),
      filter_seg _ _ (fun _ =>
        str_append_ne_empty _ ")"
          (str_append_ne_empty "alert.severity:(" _ (by decide))),
      filter_seg _ _ (fun _ => str_append_ne_empty "ip:" fs.ip (by decide)),
      filter_seg _ _ (fun _ =>
        str_append_ne_empty _ "\""
          (str_append_ne_empty "alert.signature:\"" _ (by decide))),
      filter_seg _ _ (fun _ => str_append_ne_empty "proto:" fs.proto (by decide)),
      filter_seg _ _ (fun _ => str_append_ne_empty "port:" fs.port (by decide)),
      filter_seg _ _ (fun h => h),
      filter_seg _ _ (fun _ => by decide),
      List.filter_nil]
    simp
  · intro sensor q
    unfold ovBuildQueryString specComposeOv
    rw [filter_seg _ _ (fun _ => str_append_ne_empty "host:" sensor (by decide)),
      filter_seg _ _ (fun h => h),
      List.filter_nil]
    simp

/-- C2: the round-trip property fails on the code.  A space-free value
round-trips through the tokenizer as the single original fragment, but a
value containing a space (here the signature "ET SCAN", exactly what the
Top Signatures click handler quotes) is split into two corrupted tokens,
because the tokenizer's quoted-phrase alternative only matches when the `"`
begins a token, while the click handler embeds the `"` after `field:`. -/
theorem clickFragment_roundtrip_fails_on_spaced_value :
    splitQueryStr (mkFragment "src_ip" "10.1.1.1") = [mkFragment "src_ip" "10.1.1.1"] ∧
    mkFragment "alert.signature" "ET SCAN" = "alert.signature:\"ET SCAN\"" ∧
    splitQueryStr (mkFragment "alert.signature" "ET SCAN") =
      ["alert.signature:\"ET", "SCAN\""] ∧
    splitQueryStr (mkFragment "alert.signature" "ET SCAN") ≠
      [mkFragment "alert.signature" "ET SCAN"] := by
  refine ⟨by decide, by decide, by decide, by decide⟩

/-- C3: `addFilter` is not idempotent.  Adding the click-handler fragment for
the spaced value "ET SCAN" twice duplicates it — in the Overview tokenizer and
in the SoDashboards tokenizer alike — because re-splitting the stored query
never reproduces the quoted fragment verbatim, so the `includes` dedup check
fails and the fragment is pushed again. -/
theorem addFilter_not_idempotent_on_quoted_fragment :
    addFilter "" "alert.signature:\"ET SCAN\"" = "alert.signature:\"ET SCAN\"" ∧
    addFilter (addFilter "" "alert.signature:\"ET SCAN\"") "alert.signature:\"ET SCAN\"" =
      "alert.signature:\"ET SCAN\" alert.signature:\"ET SCAN\"" ∧
    addFilter (addFilter "" "alert.signature:\"ET SCAN\"") "alert.signature:\"ET SCAN\"" ≠
      addFilter "" "alert.signature:\"ET SCAN\"" ∧
    soAddFilter (soAddFilter "" "alert.signature:\"ET SCAN\"") "alert.signature:\"ET SCAN\"" ≠
      soAddFilter "" "alert.signature:\"ET SCAN\"" := by
  refine ⟨by decide, by decide, by decide, by decide⟩

/-- C9 counterexample: the tokenizer can produce empty and whitespace-only
tokens — a quoted empty phrase yields the empty token and a quoted blank
phrase yields a whitespace-only token. -/
theorem splitQuery_blank_token_counterexample :
    splitQueryStr "\"\" x" = ["", "x"] ∧
    "" ∈ splitQueryStr "\"\" x" ∧
    splitQueryStr "\" \"" = [" "] ∧
    jsTrim " " = "" := by
  refine ⟨by decide, by decide, by decide, by decide⟩

/-- Characters of the prefix taken before a quote are exactly that prefix. -/
theorem takeWhile_until_quote :
    ∀ (p rest : List Char), '"' ∉ p →
      (p ++ '"' :: rest).takeWhile (fun d => d != '"') = p := by
  intro p
  induction p with
  | nil => intro rest _; simp [List.takeWhile_cons]
  | cons a as ih =>
    intro rest hp
    have ha : a ≠ '"' := fun e => hp (e ▸ List.mem_cons_self a as)
    have has : '"' ∉ as := fun m => hp (List.mem_cons_of_mem _ m)
    simp only [List.cons_append, List.takeWhile_cons]
    simp [ha, ih rest has]

/-- Dropping up to the quote leaves the quote and the remainder. -/
theorem dropWhile_until_quote :
    ∀ (p rest : List Char), '"' ∉ p →
      (p ++ '"' :: rest).dropWhile (fun d => d != '"') = '"' :: rest := by
  intro p
  induction p with
  | nil => intro rest _; simp [List.dropWhile_cons]
  | cons a as ih =>
    intro rest hp
    have ha : a ≠ '"' := fun e => hp (e ▸ List.mem_cons_self a as)
    have has : '"' ∉ as := fun m => hp (List.mem_cons_of_mem _ m)
    simp only [List.cons_append, List.dropWhile_cons]
    simp [ha, ih rest has]

/-- A quoted phrase whose opening quote begins a token is emitted by the
tokenizer as that single (quote-stripped) token. -/
theorem splitQuery_quoted_phrase (p rest : List Char) (hp : '"' ∉ p) :
    splitQuery ('"' :: (p ++ '"' :: rest)) = p :: splitQuery rest := by
  have hmem : '"' ∈ p ++ '"' :: rest :=
    List.mem_append_right _ (List.mem_cons_self _ _)
  rw [splitQuery_cons_quote _ hmem, takeWhile_until_quote p rest hp,
    dropWhile_until_quote p rest hp, List.tail_cons]

/-- On quote-free input every token emitted by `splitQuery` is a non-empty
run of non-whitespace characters. -/
theorem splitQuery_noquote_tokens :
    ∀ (n : Nat) (l : List Char), l.length ≤ n → '"' ∉ l →
      ∀ t ∈ splitQuery l, t ≠ [] ∧ ∀ c ∈ t, jsWhite c = false := by
  intro n
  induction n with
  | zero =>
    intro l h _ t ht
    have hl : l = [] := List.eq_nil_of_length_eq_zero (Nat.le_zero.mp h)
    subst hl
    simp [splitQuery_nil] at ht
  | succ n ih =>
    intro l h hq t ht
    cases l with
    | nil => simp [splitQuery_nil] at ht
    | cons c cs =>
      have hqc : c ≠ '"' := fun e => hq (e ▸ List.mem_cons_self c cs)
      have hqcs : '"' ∉ cs := fun m => hq (List.mem_cons_of_mem _ m)
      have hlen : cs.length ≤ n := by
        simpa using Nat.le_of_succ_le_succ (by simpa using h)
      by_cases hw : jsWhite c
      · rw [splitQuery_cons_ws c cs hw] at ht
        exact ih cs hlen hqcs t ht
      · rw [splitQuery_cons_bare c cs (by simpa using hw) (fun hcq => hqc hcq.1)] at ht
        rcases List.mem_cons.mp ht with rfl | ht2
        · refine ⟨by simp, ?_⟩
          intro ch hch
          rcases List.mem_cons.mp hch with rfl | hch2
          · simpa using hw
          · have := List.mem_takeWhile_imp hch2
            simpa using this
        · have hsub : '"' ∉ cs.dropWhile (fun d => !jsWhite d) := fun m =>
            hqcs ((cs.dropWhile_suffix (fun d => !jsWhite d)).subset m)
          have hsublen : (cs.dropWhile (fun d => !jsWhite d)).length ≤ n :=
            le_trans (dropWhile_len_le _ cs) hlen
          exact ih _ hsublen hsub t ht2

/-- C9 (amended): the SoDashboards tokenizer never yields a blank token; the
Overview tokenizer yields only non-empty all-non-whitespace tokens on inputs
free of double quotes; and a double-quoted phrase whose opening quote begins a
token is preserved as a single (quote-stripped) token.  (Quoted empty or
whitespace-only phrases are the sole source of blank tokens; see the
counterexample.) -/
theorem tokens_nonblank_and_quoted_phrases_preserved :
    (∀ (q : String), ∀ t ∈ soSplit q, jsTrim t ≠ "") ∧
    (∀ l : List Char, '"' ∉ l →
      ∀ t ∈ splitQuery l, t ≠ [] ∧ ∀ c ∈ t, jsWhite c = false) ∧
    (∀ (p rest : List Char), '"' ∉ p →
      splitQuery ('"' :: (p ++ '"' :: rest)) = p :: splitQuery rest) := by
  refine ⟨?_, ?_, ?_⟩
  · intro q t ht
    have := (List.mem_filter.mp ht).2
    simpa using this
  · intro l hq t ht
    exact splitQuery_noquote_tokens l.length l (Nat.le_refl _) hq t ht
  · exact splitQuery_quoted_phrase

/-- Witness for C9: the amended claim applied at concrete inputs — the token
"a" of the SoDashboards query "a b" is non-blank, the quote-free input "p"
yields the single non-blank token "p", and the quoted phrase `"E T"` at a
token start is preserved as one token. -/
theorem tokens_nonblank_witness :
    jsTrim "a" ≠ "" ∧
    (['p'] ≠ [] ∧ ∀ c ∈ ['p'], jsWhite c = false) ∧
    splitQuery ('"' :: (['E', ' ', 'T'] ++ '"' :: [])) = ['E', ' ', 'T'] :: splitQuery [] := by
  refine ⟨?_, ?_, ?_⟩
  · exact tokens_nonblank_and_quoted_phrases_preserved.1 "a b" "a" (by decide)
  · exact tokens_nonblank_and_quoted_phrases_preserved.2.1 ['p'] (by decide) ['p'] (by decide)
  · exact tokens_nonblank_and_quoted_phrases_preserved.2.2 ['E', ' ', 'T'] [] (by decide)

/-- C1: in the Overview analytics engine a completion whose captured
generation differs from the current `rid` is discarded without touching any
chart, while a current-generation completion does update its chart (so the
guard is not vacuous); in the SoDashboards engine a refresh call arriving
while a cycle is in flight is a no-op (the `loading` guard), so a later
request batch never starts before the earlier cycle's responses have arrived
and no two generations of requests ever overlap. -/
theorem stale_generation_never_applied :
    (∀ (s : GenState) (g c : Nat), g ≠ s.rid →
      (genStep s (GenEvent.complete g c)).charts = s.charts) ∧
    (∀ (s : GenState) (c : Nat),
      (genStep s (GenEvent.complete s.rid c)).charts c = some s.rid) ∧
    (∀ s : SoPage, s.loading = true → soRefreshAllCharts s = s) := by
  refine ⟨?_, ?_, ?_⟩
  · intro s g c h
    simp [genStep, h]
  · intro s c
    simp [genStep]
  · intro s h
    simp [soRefreshAllCharts, h]

/-- Witness for C1: with `rid = 2`, the completion of a request that captured
generation 1 leaves the chart map untouched, a generation-2 completion updates
chart 3, and a refresh call on a loading SoDashboards page is a no-op. -/
theorem stale_generation_never_applied_witness :
    (genStep { rid := 2, pending := [(1, 0)], charts := fun _ => none }
        (GenEvent.complete 1 0)).charts =
      ({ rid := 2, pending := [(1, 0)], charts := fun _ => none } : GenState).charts ∧
    (genStep { rid := 2, pending := [(2, 3)], charts := fun _ => none }
        (GenEvent.complete 2 3)).charts 3 = some 2 ∧
    soRefreshAllCharts { loading := true, cycle := 1, issued := [1] } =
      { loading := true, cycle := 1, issued := [1] } := by
  refine ⟨?_, ?_, ?_⟩
  · exact stale_generation_never_applied.1 _ 1 0 (by decide)
  · exact stale_generation_never_applied.2.1 { rid := 2, pending := [(2, 3)], charts := fun _ => none } 3
  · exact stale_generation_never_applied.2.2 _ rfl

/-- C7 counterexample: a failed chart does not always render an explicit
error placeholder.  In Overview's `refreshAnalytics` a failed load leaves the
previously rendered chart untouched, and in SoDashboardsPage a failed
`loadTopSignatures` does the same — its catch never calls `setChart` — so both
keep stale content instead of an error placeholder. -/
theorem failed_chart_keeps_stale_counterexample :
    ovRunCycle (fun _ => ChartView.data [5]) (fun _ => FetchResult.fail) "eventsPerMinute" =
      ChartView.data [5] ∧
    ovRunCycle (fun _ => ChartView.data [5]) (fun _ => FetchResult.fail) "eventsPerMinute" ≠
      ChartView.errorView ∧
    soRunCycle (fun _ => ChartView.data [7]) (fun _ => FetchResult.fail) "topSignatures" =
      ChartView.data [7] ∧
    soRunCycle (fun _ => ChartView.data [7]) (fun _ => FetchResult.fail) "topSignatures" ≠
      ChartView.errorView := by
  refine ⟨rfl, by decide, by decide, by decide⟩

/-- C7 (amended): per-chart failures are isolated in both engines — a chart's
rendered view depends only on its own result — and the refresh engine stays
usable after any subset of failures (completing a cycle clears `loading` and a
further refresh starts a new cycle); in SoDashboardsPage every failed chart
except `topSignatures` renders the explicit error placeholder, while a failed
`loadTopSignatures` (whose catch only logs, notifies and clears the signature
table) and every failed Overview `refreshAnalytics` load keep the chart's
previous (possibly stale) content. -/
theorem chart_failures_isolated :
    (∀ (charts : String → ChartView) (r r' : String → FetchResult) (k : String),
      r k = r' k → soRunCycle charts r k = soRunCycle charts r' k) ∧
    (∀ (charts : String → ChartView) (r : String → FetchResult) (k : String),
      k ≠ "topSignatures" → r k = FetchResult.fail →
        soRunCycle charts r k = ChartView.errorView) ∧
    (∀ (charts : String → ChartView) (r : String → FetchResult),
      r "topSignatures" = FetchResult.fail →
        soRunCycle charts r "topSignatures" = charts "topSignatures") ∧
    (∀ s : SoPage, (soCompleteCycle s).loading = false ∧
      (soRefreshAllCharts (soCompleteCycle s)).issued = s.issued ++ [s.cycle + 1]) ∧
    (∀ (charts : String → ChartView) (r r' : String → FetchResult) (k : String),
      r k = r' k → ovRunCycle charts r k = ovRunCycle charts r' k) ∧
    (∀ v : ChartView, ovApplyResult v FetchResult.fail = v) := by
  refine ⟨?_, ?_, ?_, ?_, ?_, ?_⟩
  · intro charts r r' k h
    simp [soRunCycle, h]
  · intro charts r k hk h
    simp [soRunCycle, hk, h, soApplyResult]
  · intro charts r h
    simp [soRunCycle, h, soApplySignatures]
  · intro s
    refine ⟨rfl, ?_⟩
    simp [soRefreshAllCharts, soCompleteCycle]
  · intro charts r r' k h
    simp [ovRunCycle, h]
  · intro v
    rfl

/-- Witness for C7: two result maps agreeing on the key "a" give "a" the same
view in either engine, a failing "a" renders the error placeholder in the
SoDashboards engine, a failing topSignatures keeps its previous view, and
completing a cycle re-enables the engine. -/
theorem chart_failures_isolated_witness :
    soRunCycle (fun _ => ChartView.blank)
        (fun k => if k = "a" then FetchResult.ok [1] else FetchResult.fail) "a" =
      soRunCycle (fun _ => ChartView.blank) (fun _ => FetchResult.ok [1]) "a" ∧
    soRunCycle (fun _ => ChartView.blank) (fun _ => FetchResult.fail) "a" =
      ChartView.errorView ∧
    soRunCycle (fun _ => ChartView.data [9]) (fun _ => FetchResult.fail) "topSignatures" =
      (fun _ => ChartView.data [9]) "topSignatures" ∧
    (soCompleteCycle soPageInit).loading = false ∧
    ovRunCycle (fun _ => ChartView.blank)
        (fun k => if k = "a" then FetchResult.fail else FetchResult.ok [2]) "a" =
      ovRunCycle (fun _ => ChartView.blank) (fun _ => FetchResult.fail) "a" := by
  refine ⟨?_, ?_, ?_, ?_, ?_⟩
  · exact chart_failures_isolated.1 (fun _ => ChartView.blank)
      (fun k => if k = "a" then FetchResult.ok [1] else FetchResult.fail)
      (fun _ => FetchResult.ok [1]) "a" (by decide)
  · exact chart_failures_isolated.2.1 (fun _ => ChartView.blank)
      (fun _ => FetchResult.fail) "a" (by decide) rfl
  · exact chart_failures_isolated.2.2.1 (fun _ => ChartView.data [9])
      (fun _ => FetchResult.fail) rfl
  · exact (chart_failures_isolated.2.2.2.1 soPageInit).1
  · exact chart_failures_isolated.2.2.2.2.1 (fun _ => ChartView.blank)
      (fun k => if k = "a" then FetchResult.fail else FetchResult.ok [2])
      (fun _ => FetchResult.fail) "a" (by decide)

/-- C8 counterexample: in SoDashboardsPage a FilterState mutation arriving
while a refresh cycle is in flight is skipped entirely — no new request batch
is issued — because `refreshAllCharts` returns under the `loading` guard. -/
theorem mutation_skipped_while_loading_counterexample :
    soMutate (soRefreshAllCharts soPageInit) = soRefreshAllCharts soPageInit ∧
    (soMutate (soRefreshAllCharts soPageInit)).issued = [1] := by
  refine ⟨by decide, by decide⟩

/-- C8 (amended): in Overview every `addFilter`/`removeFilter` mutation
synchronously triggers a refresh cycle with a strictly larger generation and
issues the analytics batch at generation `rid + 1`, with no guard against
outstanding requests; in SoDashboardsPage a mutation triggers a new request
batch when the engine is idle but is skipped entirely while a cycle is in
flight (and cycles carry no generation tags). -/
theorem mutation_triggers_fresh_generation :
    (∀ (s : OvPage) (frag : String),
      s.rid < (ovAddFilter s frag).rid ∧
      (s.rid + 1) ∈ (ovAddFilter s frag).analyticsIssued ∧
      s.rid < (ovRemoveFilter s frag).rid ∧
      (s.rid + 1) ∈ (ovRemoveFilter s frag).analyticsIssued) ∧
    (∀ s : SoPage, s.loading = false →
      (soMutate s).issued = s.issued ++ [s.cycle + 1]) ∧
    (∀ s : SoPage, s.loading = true → soMutate s = s) := by
  refine ⟨?_, ?_, ?_⟩
  · intro s frag
    refine ⟨?_, ?_, ?_, ?_⟩ <;>
      simp [ovAddFilter, ovRemoveFilter, propagate, timeRangeEffectBody,
        ovRefreshAnalytics, ovRefresh, timeRangeEffectReads, buildQueryStringReads] <;>
      omega
  · intro s h
    simp [soMutate, soRefreshAllCharts, h]
  · intro s h
    simp [soMutate, soRefreshAllCharts, h]

/-- Witness for C8: from the initial states, an `addFilter` mutation bumps the
Overview analytics generation and issues generation 1, an idle SoDashboards
page issues cycle 1 on mutation, and a loading page ignores the mutation. -/
theorem mutation_triggers_fresh_generation_witness :
    ovPageInit.rid < (ovAddFilter ovPageInit "proto:tcp").rid ∧
    (ovPageInit.rid + 1) ∈ (ovAddFilter ovPageInit "proto:tcp").analyticsIssued ∧
    (soMutate soPageInit).issued = soPageInit.issued ++ [soPageInit.cycle + 1] ∧
    soMutate { loading := true, cycle := 3, issued := [3] } =
      { loading := true, cycle := 3, issued := [3] } := by
  refine ⟨?_, ?_, ?_, ?_⟩
  · exact (mutation_triggers_fresh_generation.1 ovPageInit "proto:tcp").1
  · exact (mutation_triggers_fresh_generation.1 ovPageInit "proto:tcp").2.1
  · exact mutation_triggers_fresh_generation.2.1 soPageInit rfl
  · exact mutation_triggers_fresh_generation.2.2 _ rfl

/-- C10 counterexample: an `addFilter` call does not leave the SSE-backed
aggregation stores and the events-by-type histogram untouched — from the
initial Overview page state it re-issues both at generation 1, because the
TIME_RANGE effect's tracked reads include `filters.query` (read synchronously
by `buildQueryString` inside `refresh()`), so the mutation re-runs that effect
and `refresh()` with it. -/
theorem addFilter_requeries_sse_counterexample :
    (ovAddFilter ovPageInit "proto:tcp").sseIssued = [1] ∧
    (ovAddFilter ovPageInit "proto:tcp").sseIssued ≠ ovPageInit.sseIssued ∧
    (ovAddFilter ovPageInit "proto:tcp").histIssued = [1] := by
  refine ⟨by decide, by decide, by decide⟩

/-- C10 (amended): `refreshAnalytics` itself — the only call `addFilter` makes
directly — never touches the SSE aggregation stores or the events histogram;
but `filters.query` is among the TIME_RANGE effect's tracked reads, so a full
`addFilter` mutation re-runs that effect and therefore re-issues the SSE batch
and the histogram at the new `version`, and runs `refreshAnalytics` twice
(once directly, once from the effect). -/
theorem addFilter_frame_and_effect_requery :
    (∀ s : OvPage, (ovRefreshAnalytics s).sseIssued = s.sseIssued ∧
      (ovRefreshAnalytics s).histIssued = s.histIssued) ∧
    Cell.query ∈ timeRangeEffectReads ∧
    (∀ (s : OvPage) (frag : String),
      (ovAddFilter s frag).sseIssued = s.sseIssued ++ [s.version + 1] ∧
      (ovAddFilter s frag).histIssued = s.histIssued ++ [s.version + 1] ∧
      (ovAddFilter s frag).rid = s.rid + 2) := by
  refine ⟨?_, ?_, ?_⟩
  · intro s
    exact ⟨rfl, rfl⟩
  · simp [timeRangeEffectReads, buildQueryStringReads]
  · intro s frag
    refine ⟨?_, ?_, ?_⟩ <;>
      simp [ovAddFilter, propagate, timeRangeEffectBody, ovRefreshAnalytics,
        ovRefresh, timeRangeEffectReads, buildQueryStringReads]

/-- Destroying the existing instance for a key empties that key's slot. -/
theorem destroyExisting_reg_self (s : RegState) (key : String) :
    (destroyExisting s key).reg key = none := by
  unfold destroyExisting
  cases h : s.reg key with
  | none => exact h
  | some old => simp

/-- Destroying for one key leaves other keys' slots unchanged. -/
theorem destroyExisting_reg_other (s : RegState) (key key' : String) (h : key ≠ key') :
    (destroyExisting s key').reg key = s.reg key := by
  unfold destroyExisting
  cases hr : s.reg key' with
  | none => rfl
  | some old => simp [h]

/-- Creating for a key fills that key's slot with the fresh id. -/
theorem createChart_reg_self (s : RegState) (key : String) :
    (createChart s key).reg key = some s.nextId := by
  simp [createChart]

/-- Creating for one key leaves other keys' slots unchanged. -/
theorem createChart_reg_other (s : RegState) (key key' : String) (h : key ≠ key') :
    (createChart s key').reg key = s.reg key := by
  simp [createChart, h]

/-- `destroyExisting` preserves the registry invariant. -/
theorem regInv_destroyExisting {s : RegState} (h : RegInv s) (key : String) :
    RegInv (destroyExisting s key) := by
  obtain ⟨h1, h2, h3, h4, h5⟩ := h
  cases hreg : s.reg key with
  | none =>
    have hde : destroyExisting s key = s := by
      unfold destroyExisting
      rw [hreg]
    rw [hde]
    exact ⟨h1, h2, h3, h4, h5⟩
  | some old =>
    have hde : destroyExisting s key =
        { s with
          destroyed := old :: s.destroyed,
          reg := fun k => if k = key then none else s.reg k } := by
      unfold destroyExisting
      rw [hreg]
    rw [hde]
    obtain ⟨hoc, _⟩ := h2 key old hreg
    refine ⟨?_, ?_, h3, h4, ?_⟩
    · intro i k hik hid
      simp only [List.mem_cons, not_or] at hid
      obtain ⟨hio, hidd⟩ := hid
      have hr := h1 i k hik hidd
      by_cases hk : k = key
      · subst hk
        rw [hreg] at hr
        exact absurd (Option.some.inj hr).symm hio
      · simpa [hk] using hr
    · intro k i hrk
      by_cases hk : k = key
      · subst hk
        simp at hrk
      · simp only [if_neg hk] at hrk
        obtain ⟨hc, hd⟩ := h2 k i hrk
        refine ⟨hc, ?_⟩
        simp only [List.mem_cons, not_or]
        refine ⟨?_, hd⟩
        intro hio
        subst hio
        exact hk (h4 i k key hc hoc)
    · intro i hid
      simp only [List.mem_cons] at hid
      rcases hid with rfl | hid
      · exact h3 i key hoc
      · exact h5 i hid

/-- `createChart` preserves the registry invariant, provided the key's slot is
empty (which `destroyExisting` guarantees). -/
theorem regInv_createChart {s : RegState} (h : RegInv s) (key : String)
    (hnone : s.reg key = none) : RegInv (createChart s key) := by
  obtain ⟨h1, h2, h3, h4, h5⟩ := h
  refine ⟨?_, ?_, ?_, ?_, ?_⟩
  · intro i k hik hid
    simp only [createChart, List.mem_cons] at hik
    rcases hik with heq | hik
    · have hi : i = s.nextId := congrArg Prod.fst heq
      have hk : k = key := congrArg Prod.snd heq
      subst hi
      subst hk
      simp [createChart]
    · have hr := h1 i k hik (by simpa [createChart] using hid)
      have hk : k ≠ key := by
        intro e
        subst e
        rw [hnone] at hr
        cases hr
      simp [createChart, hk, hr]
  · intro k i hrk
    simp only [createChart] at hrk
    by_cases hk : k = key
    · subst hk
      rw [if_pos rfl] at hrk
      have hi : s.nextId = i := Option.some.inj hrk
      subst hi
      refine ⟨by simp [createChart], ?_⟩
      simp only [createChart]
      intro hd
      exact absurd (h5 _ hd) (lt_irrefl _)
    · rw [if_neg hk] at hrk
      obtain ⟨hc, hd⟩ := h2 k i hrk
      exact ⟨List.mem_cons_of_mem _ hc, hd⟩
  · intro i k hik
    simp only [createChart, List.mem_cons] at hik
    rcases hik with heq | hik
    · have hi : i = s.nextId := congrArg Prod.fst heq
      subst hi
      simp [createChart]
    · have := h3 i k hik
      simp only [createChart]
      omega
  · intro i k k' hik hik'
    simp only [createChart, List.mem_cons] at hik hik'
    rcases hik with he | hm <;> rcases hik' with he' | hm'
    · have hk : k = key := congrArg Prod.snd he
      have hk' : k' = key := congrArg Prod.snd he'
      rw [hk, hk']
    · exfalso
      have hi : i = s.nextId := congrArg Prod.fst he
      subst hi
      exact absurd (h3 _ _ hm') (lt_irrefl _)
    · exfalso
      have hi : i = s.nextId := congrArg Prod.fst he'
      subst hi
      exact absurd (h3 _ _ hm) (lt_irrefl _)
    · exact h4 i k k' hm hm'
  · intro i hid
    simp only [createChart] at hid
    have := h5 i hid
    simp only [createChart]
    omega

/-- `upsertChart` preserves the registry invariant. -/
theorem regInv_upsertChart {s : RegState} (h : RegInv s) (hc : String → Bool)
    (key : String) : RegInv (upsertChart hc s key) := by
  unfold upsertChart
  split
  · exact regInv_createChart (regInv_destroyExisting h key) key (destroyExisting_reg_self s key)
  · exact h

/-- Any sequence of upserts preserves the registry invariant. -/
theorem regInv_runUpserts (hc : String → Bool) (calls : List String) :
    ∀ s : RegState, RegInv s → RegInv (runUpserts hc s calls) := by
  induction calls with
  | nil => intro s h; exact h
  | cons k ks ih =>
    intro s h
    exact ih (upsertChart hc s k) (regInv_upsertChart h hc k)

/-- The empty registry satisfies the invariant. -/
theorem regInv_init : RegInv regInit := by
  refine ⟨?_, ?_, ?_, ?_, ?_⟩ <;> intros <;> simp_all [regInit]

/-- An occupied slot survives an upsert on any key (the same key replaces the
occupant, a different key leaves it alone). -/
theorem upsert_keeps_some (hc : String → Bool) (s : RegState) (key key' : String)
    (h : ∃ i, s.reg key = some i) : ∃ i, (upsertChart hc s key').reg key = some i := by
  unfold upsertChart
  split
  · by_cases hk : key = key'
    · subst hk
      exact ⟨_, createChart_reg_self _ _⟩
    · rw [createChart_reg_other _ _ _ hk, destroyExisting_reg_other _ _ _ hk]
      exact h
  · exact h

/-- An occupied slot survives any sequence of upserts. -/
theorem runUpserts_keeps_some (hc : String → Bool) (calls : List String) :
    ∀ (s : RegState) (key : String), (∃ i, s.reg key = some i) →
      ∃ i, (runUpserts hc s calls).reg key = some i := by
  induction calls with
  | nil => intro s key h; exact h
  | cons k ks ih =>
    intro s key h
    exact ih _ key (upsert_keeps_some hc s key k h)

/-- After a sequence containing an effective upsert on `key`, the key's slot
is occupied. -/
theorem runUpserts_some_of_mem (hc : String → Bool) (calls : List String) :
    ∀ (s : RegState) (key : String), hc key = true → key ∈ calls →
      ∃ i, (runUpserts hc s calls).reg key = some i := by
  induction calls with
  | nil =>
    intro s key _ hm
    simp at hm
  | cons k ks ih =>
    intro s key hck hm
    rcases List.mem_cons.mp hm with rfl | hm2
    · refine runUpserts_keeps_some hc ks (upsertChart hc s key) key ?_
      unfold upsertChart
      rw [if_pos hck]
      exact ⟨_, createChart_reg_self _ _⟩
    · exact ih _ key hck hm2

/-- Under the invariant, at most one instance is live per key. -/
theorem regInv_at_most_one {s : RegState} (h : RegInv s) (k : String) (i j : Nat)
    (hi : instLive s i k) (hj : instLive s j k) : i = j := by
  have e1 := h.1 i k hi.1 hi.2
  have e2 := h.1 j k hj.1 hj.2
  rw [e1] at e2
  exact Option.some.inj e2

/-- C4: along any sequence of upsert calls starting from the empty registry,
at most one live visual instance exists per key at every point — including the
transient state inside an upsert after the old instance has been destroyed and
before the new one is stored — and any key that was effectively upserted (its
canvas mounted) ends with exactly one live instance while every other instance
ever created for it has been destroyed. -/
theorem upsertChart_one_live_instance_per_key (hasCanvas : String → Bool)
    (calls : List String) :
    (∀ (k : String) (i j : Nat),
      instLive (runUpserts hasCanvas regInit calls) i k →
      instLive (runUpserts hasCanvas regInit calls) j k → i = j) ∧
    (∀ (key k : String) (i j : Nat),
      instLive (destroyExisting (runUpserts hasCanvas regInit calls) key) i k →
      instLive (destroyExisting (runUpserts hasCanvas regInit calls) key) j k → i = j) ∧
    (∀ key : String, hasCanvas key = true → key ∈ calls →
      ∃ i, instLive (runUpserts hasCanvas regInit calls) i key ∧
        ∀ j, (j, key) ∈ (runUpserts hasCanvas regInit calls).created → j ≠ i →
          j ∈ (runUpserts hasCanvas regInit calls).destroyed) := by
  have hinv : RegInv (runUpserts hasCanvas regInit calls) :=
    regInv_runUpserts hasCanvas calls regInit regInv_init
  refine ⟨?_, ?_, ?_⟩
  · intro k i j hi hj
    exact regInv_at_most_one hinv k i j hi hj
  · intro key k i j hi hj
    exact regInv_at_most_one (regInv_destroyExisting hinv key) k i j hi hj
  · intro key hck hm
    obtain ⟨i, hri⟩ := runUpserts_some_of_mem hasCanvas calls regInit key hck hm
    obtain ⟨hc, hd⟩ := hinv.2.1 key i hri
    refine ⟨i, ⟨hc, hd⟩, ?_⟩
    intro j hjc hne
    by_contra hjd
    exact hne (regInv_at_most_one hinv key j i ⟨hjc, hjd⟩ ⟨hc, hd⟩)

/-- Witness for C4: after the call sequence ["a", "a", "b"] with all canvases
mounted, exactly one live instance exists for key "a" and every other
instance created for "a" has been destroyed. -/
theorem upsertChart_one_live_instance_per_key_witness :
    ∃ i, instLive (runUpserts (fun _ => true) regInit ["a", "a", "b"]) i "a" ∧
      ∀ j, (j, "a") ∈ (runUpserts (fun _ => true) regInit ["a", "a", "b"]).created →
        j ≠ i → j ∈ (runUpserts (fun _ => true) regInit ["a", "a", "b"]).destroyed :=
  (upsertChart_one_live_instance_per_key (fun _ => true) ["a", "a", "b"]).2.2 "a" rfl
    (by decide)

/-- Every key of the replaced association list is either the new key or an old
key. -/
theorem sparkKeys_loadTrend (s : SparkState) (key k : String) :
    k ∈ sparkKeys (loadTrend s key) ↔ k = key ∨ k ∈ sparkKeys s := by
  simp only [sparkKeys, loadTrend, List.map_cons, List.mem_cons, List.mem_map,
    List.mem_filter]
  constructor
  · rintro (rfl | ⟨p, ⟨hp, _⟩, rfl⟩)
    · exact Or.inl rfl
    · exact Or.inr ⟨p, hp, rfl⟩
  · rintro (rfl | ⟨p, hp, rfl⟩)
    · exact Or.inl rfl
    · by_cases hk : p.1 = key
      · exact Or.inl hk
      · exact Or.inr ⟨p, ⟨hp, by simpa using hk⟩, rfl⟩

/-- The reconciliation destroy pass keeps exactly the keys of the current
result set. -/
theorem sparkKeys_destroyStale (s : SparkState) (keys : List String) (k : String) :
    k ∈ sparkKeys (destroyStale s keys) ↔ k ∈ sparkKeys s ∧ k ∈ keys := by
  simp only [sparkKeys, destroyStale, List.mem_map, List.mem_filter]
  constructor
  · rintro ⟨p, ⟨hp, hmem⟩, rfl⟩
    exact ⟨⟨p, hp, rfl⟩, of_decide_eq_true hmem⟩
  · rintro ⟨⟨p, hp, rfl⟩, hk⟩
    exact ⟨p, ⟨hp, decide_eq_true hk⟩, rfl⟩

/-- Loading a trend chart per row adds exactly the row keys to the live set. -/
theorem sparkKeys_foldl_loadTrend (rows : List String) :
    ∀ (s : SparkState) (k : String),
      k ∈ sparkKeys (rows.foldl loadTrend s) ↔ k ∈ sparkKeys s ∨ k ∈ rows := by
  induction rows with
  | nil =>
    intro s k
    simp
  | cons r rs ih =>
    intro s k
    rw [List.foldl_cons, ih (loadTrend s r) k, sparkKeys_loadTrend]
    constructor
    · rintro ((rfl | h) | h)
      · exact Or.inr (List.mem_cons_self _ _)
      · exact Or.inl h
      · exact Or.inr (List.mem_cons_of_mem _ h)
    · rintro (h | h)
      · exact Or.inl (Or.inr h)
      · rcases List.mem_cons.mp h with rfl | h2
        · exact Or.inl (Or.inl rfl)
        · exact Or.inr h2

/-- The destroyed log only grows along the trend loads. -/
theorem foldl_loadTrend_destroyed_mono (rows : List String) :
    ∀ (s : SparkState) (i : Nat),
      i ∈ s.destroyed → i ∈ (rows.foldl loadTrend s).destroyed := by
  induction rows with
  | nil => intro s i h; exact h
  | cons r rs ih =>
    intro s i h
    refine ih (loadTrend s r) i ?_
    simp only [loadTrend]
    exact List.mem_append_right _ h

/-- The reconciliation destroy pass records the id of every stale entry as
destroyed. -/
theorem destroyStale_destroys (s : SparkState) (keys : List String) (k : String)
    (i : Nat) (h : (k, i) ∈ s.spark) (hk : k ∉ keys) :
    i ∈ (destroyStale s keys).destroyed := by
  simp only [destroyStale]
  apply List.mem_append_left
  simp only [List.mem_map, List.mem_filter]
  exact ⟨(k, i), ⟨h, by simp [hk]⟩, rfl⟩

/-- C5 (amended): after the Overview sparkline reconciliation effect runs to
quiescence on the current top-signature rows, the live sparkline set equals
exactly the row key set, and every sparkline instance whose key is not among
the rows has been destroyed; the SoDashboards `loadTopSignatures` pass instead
leaves the live set equal to the union of the previous live set and the row
set — sparklines for keys that dropped out of the top-N stay live. -/
theorem sparkline_reconciliation :
    (∀ (s : SparkState) (rows : List String) (k : String),
      k ∈ sparkKeys (ovSparkReconcile s rows) ↔ k ∈ rows) ∧
    (∀ (s : SparkState) (rows : List String) (k : String) (i : Nat),
      (k, i) ∈ s.spark → k ∉ rows → i ∈ (ovSparkReconcile s rows).destroyed) ∧
    (∀ (s : SparkState) (rows : List String) (k : String),
      k ∈ sparkKeys (soSparkLoad s rows) ↔ k ∈ sparkKeys s ∨ k ∈ rows) := by
  refine ⟨?_, ?_, ?_⟩
  · intro s rows k
    unfold ovSparkReconcile
    rw [sparkKeys_foldl_loadTrend, sparkKeys_destroyStale]
    constructor
    · rintro (⟨_, hk⟩ | hk) <;> exact hk
    · intro h
      exact Or.inr h
  · intro s rows k i h hk
    unfold ovSparkReconcile
    exact foldl_loadTrend_destroyed_mono rows _ i (destroyStale_destroys s rows k i h hk)
  · intro s rows k
    exact sparkKeys_foldl_loadTrend rows s k

/-- C5 counterexample: in SoDashboardsPage, after a top-signatures result
["A"] followed by a result ["B"], the sparkline for "A" is still live — the
live set is not equal to the current result's key set. -/
theorem sodash_sparkline_leak_counterexample :
    "A" ∈ sparkKeys (soSparkLoad (soSparkLoad sparkInit ["A"]) ["B"]) ∧
    "A" ∉ (["B"] : List String) ∧
    sparkKeys (soSparkLoad (soSparkLoad sparkInit ["A"]) ["B"]) ≠ ["B"] := by
  refine ⟨by decide, by decide, by decide⟩

/-- Witness for C5: reconciling the empty registry against rows ["B"] leaves
exactly the live key "B", and reconciling a registry holding only "A" against
rows ["B"] destroys instance 0 (the "A" sparkline). -/
theorem sparkline_reconciliation_witness :
    ("B" ∈ sparkKeys (ovSparkReconcile sparkInit ["B"]) ↔ "B" ∈ (["B"] : List String)) ∧
    0 ∈ (ovSparkReconcile { nextId := 1, spark := [("A", 0)], destroyed := [] } ["B"]).destroyed := by
  constructor
  · exact sparkline_reconciliation.1 sparkInit ["B"] "B"
  · exact sparkline_reconciliation.2.1 { nextId := 1, spark := [("A", 0)], destroyed := [] }
      ["B"] "A" 0 (by decide) (by decide)

end Evebox
